import Mathlib

/-!
Verification of the vision-event pipeline of the auteur-agent repository.

The development shallowly embeds the client-side pipeline of
`src/frontend/hooks/useAuteurVision.ts` (response parsing, similarity
deduplication, freshness timing, relay buffering, session lifecycle) and the
connection-pairing logic of `src/frontend/components/StoryOverlay.tsx`.

JavaScript numbers are modelled as rationals together with an explicit `nan`
marker (`JSNum`); JSON values as the inductive `JValue` (JSON itself cannot
encode `NaN` or `undefined`, but property lookups returning `undefined` are
modelled with `Option`, and `JSNum.nan` keeps the coercion rules statable).
-/

/-- A JavaScript number: either NaN or a (finite) rational value. -/
inductive JSNum where
  | nan : JSNum
  | val (q : ℚ) : JSNum
deriving DecidableEq

/-- A JSON value as produced by `JSON.parse`.  Object fields keep source order;
duplicate keys are resolved to the last occurrence by `jsLookup`, as
`JSON.parse` does. -/
inductive JValue where
  | null : JValue
  | bool (b : Bool) : JValue
  | num (n : JSNum) : JValue
  | str (s : String) : JValue
  | arr (xs : List JValue) : JValue
  | obj (fields : List (String × JValue)) : JValue

/-- Last-occurrence field lookup, matching the duplicate-key behaviour of
`JSON.parse`.  `none` models `undefined`. -/
def jsLookup (fields : List (String × JValue)) (k : String) : Option JValue :=
  (fields.reverse.find? (fun p => p.1 == k)).map (fun p => p.2)

/-- JavaScript truthiness of a defined value (`undefined` is handled by the
`Option` layer at each use site). -/
def jsTruthy : JValue → Bool
  | .null => false
  | .bool b => b
  | .num .nan => false
  | .num (.val q) => q != 0
  | .str s => s != ""
  | .arr _ => true
  | .obj _ => true

/-- Property read `recv.k`: `none` models the TypeError thrown when the
receiver is `null`; `some none` models `undefined` (absent field or a
primitive receiver); `some (some v)` a present field. -/
def jsGetMember : JValue → String → Option (Option JValue)
  | .null, _ => none
  | .obj fs, k => some (jsLookup fs k)
  | _, _ => some none

/-- The digit value of a decimal digit character. -/
def digToNat (c : Char) : ℕ := c.toNat - 48

/-- Value of a list of decimal digit characters. -/
def digitsVal (ds : List Char) : ℕ :=
  ds.foldl (fun a c => 10 * a + digToNat c) 0

/-- Value of a hexadecimal digit character, if it is one. -/
def hexDigitVal (c : Char) : Option ℕ :=
  if c.isDigit then some (c.toNat - 48)
  else if 'a' ≤ c ∧ c ≤ 'f' then some (c.toNat - 87)
  else if 'A' ≤ c ∧ c ≤ 'F' then some (c.toNat - 55)
  else none

/-- Whether a character is a hexadecimal digit. -/
def isHexDigit (c : Char) : Bool := (hexDigitVal c).isSome

/-- Value of a list of hexadecimal digit characters. -/
def hexVal (ds : List Char) : ℕ :=
  ds.foldl (fun a c => 16 * a + (hexDigitVal c).getD 0) 0

/-- The four JSON whitespace characters. -/
def jsonWS (c : Char) : Bool := c == ' ' || c == '\t' || c == '\n' || c == '\r'

/-- Drop leading JSON whitespace. -/
def skipWS : List Char → List Char
  | [] => []
  | c :: cs => if jsonWS c then skipWS cs else c :: cs

/-- Parse the integer part of a JSON number: `0`, or a nonzero digit followed
by digits (a leading zero leaves the following digits unconsumed, making
inputs like `01` fail at the enclosing grammar, as `JSON.parse` does). -/
def parseIntPart : List Char → Option (ℕ × List Char)
  | '0' :: r => some (0, r)
  | c :: r =>
    if c.isDigit then
      let ds := r.takeWhile Char.isDigit
      some (digitsVal (c :: ds), r.dropWhile Char.isDigit)
    else none
  | [] => none

/-- Parse an optional JSON fraction part, as a rational in `[0,1)`. -/
def parseFrac : List Char → Option (ℚ × List Char)
  | '.' :: r =>
    let ds := r.takeWhile Char.isDigit
    if ds.isEmpty then none
    else some (mkRat (digitsVal ds) (10 ^ ds.length), r.dropWhile Char.isDigit)
  | cs => some (0, cs)

/-- Parse the signed digits of a JSON exponent. -/
def parseExpTail (cs : List Char) : Option (ℤ × List Char) :=
  let (sgn, r1) : ℤ × List Char :=
    match cs with
    | '+' :: t => (1, t)
    | '-' :: t => (-1, t)
    | _ => (1, cs)
  let ds := r1.takeWhile Char.isDigit
  if ds.isEmpty then none
  else some (sgn * (digitsVal ds : ℤ), r1.dropWhile Char.isDigit)

/-- Parse an optional JSON exponent part. -/
def parseExponentPart : List Char → Option (ℤ × List Char)
  | 'e' :: r => parseExpTail r
  | 'E' :: r => parseExpTail r
  | cs => some (0, cs)

/-- `10^e` for an integer exponent, written with `mkRat` so that it computes
by evaluation (`Rat.inv` is irreducible). -/
def powTenZ (e : ℤ) : ℚ :=
  if 0 ≤ e then ((10 ^ e.toNat : ℕ) : ℚ) else mkRat 1 (10 ^ (-e).toNat)

/-- Parse a JSON number literal. -/
def parseJsonNumber (cs : List Char) : Option (ℚ × List Char) := do
  let (neg, cs1) : Bool × List Char :=
    match cs with
    | '-' :: r => (true, r)
    | _ => (false, cs)
  let (ip, cs2) ← parseIntPart cs1
  let (fr, cs3) ← parseFrac cs2
  let (ex, cs4) ← parseExponentPart cs3
  let mag : ℚ := ((ip : ℚ) + fr) * powTenZ ex
  pure (if neg then -mag else mag, cs4)

/-- Translate a single-character JSON string escape. -/
def escChar : Char → Option Char
  | '"' => some '"'
  | '\\' => some '\\'
  | '/' => some '/'
  | 'b' => some '\x08'
  | 'f' => some '\x0c'
  | 'n' => some '\n'
  | 'r' => some '\r'
  | 't' => some '\t'
  | _ => none

/-- Combine four hex digit characters into a code point. -/
def hexVal4 (a b c d : Char) : Option ℕ := do
  let va ← hexDigitVal a
  let vb ← hexDigitVal b
  let vc ← hexDigitVal c
  let vd ← hexDigitVal d
  pure (((va * 16 + vb) * 16 + vc) * 16 + vd)

/-- Parse the characters of a JSON string after the opening quote, returning
the content and the remainder after the closing quote. -/
def parseStrChars : List Char → Option (List Char × List Char)
  | [] => none
  | '"' :: r => some ([], r)
  | '\\' :: 'u' :: a :: b :: c :: d :: r => do
    let n ← hexVal4 a b c d
    let (s, rest) ← parseStrChars r
    pure (Char.ofNat n :: s, rest)
  | '\\' :: e :: r => do
    let c ← escChar e
    let (s, rest) ← parseStrChars r
    pure (c :: s, rest)
  | c :: r => do
    let (s, rest) ← parseStrChars r
    pure (c :: s, rest)

/-- The pending work items of the JSON parser (one fueled function keeps the
recursion structural, so that proofs can evaluate it). -/
inductive JsonJob where
  | val (cs : List Char)
  | arrStart (cs : List Char)
  | arrRest (acc : List JValue) (cs : List Char)
  | objStart (cs : List Char)
  | member (acc : List (String × JValue)) (k : String) (cs : List Char)
  | objRest (acc : List (String × JValue)) (cs : List Char)

/-- The recursive-descent JSON grammar: `val` parses one value, `arrStart`
and `arrRest` the elements of an array, `objStart`, `member` and `objRest`
the members of an object.  Fuel bounds the recursion depth. -/
def jsonRun : ℕ → JsonJob → Option (JValue × List Char)
  | 0, _ => none
  | fuel + 1, .val cs =>
    match skipWS cs with
    | 'n' :: 'u' :: 'l' :: 'l' :: r => some (.null, r)
    | 't' :: 'r' :: 'u' :: 'e' :: r => some (.bool true, r)
    | 'f' :: 'a' :: 'l' :: 's' :: 'e' :: r => some (.bool false, r)
    | '"' :: r => (parseStrChars r).map (fun p => (.str (String.mk p.1), p.2))
    | '[' :: r => jsonRun fuel (.arrStart r)
    | '\x7b' :: r => jsonRun fuel (.objStart r)
    | cs2 => (parseJsonNumber cs2).map (fun p => (.num (.val p.1), p.2))
  | fuel + 1, .arrStart cs =>
    match skipWS cs with
    | ']' :: r => some (.arr [], r)
    | cs2 => do
      let (v, r1) ← jsonRun fuel (.val cs2)
      jsonRun fuel (.arrRest [v] r1)
  | fuel + 1, .arrRest acc cs =>
    match skipWS cs with
    | ']' :: r => some (.arr acc, r)
    | ',' :: r => do
      let (v, r1) ← jsonRun fuel (.val r)
      jsonRun fuel (.arrRest (acc ++ [v]) r1)
    | _ => none
  | fuel + 1, .objStart cs =>
    match skipWS cs with
    | '\x7d' :: r => some (.obj [], r)
    | '"' :: r => do
      let (k, r1) ← parseStrChars r
      jsonRun fuel (.member [] (String.mk k) r1)
    | _ => none
  | fuel + 1, .member acc k cs =>
    match skipWS cs with
    | ':' :: r => do
      let (v, r1) ← jsonRun fuel (.val r)
      jsonRun fuel (.objRest (acc ++ [(k, v)]) r1)
    | _ => none
  | fuel + 1, .objRest acc cs =>
    match skipWS cs with
    | '\x7d' :: r => some (.obj acc, r)
    | ',' :: r =>
      match skipWS r with
      | '"' :: r1 => do
        let (k, r2) ← parseStrChars r1
        jsonRun fuel (.member acc (String.mk k) r2)
      | _ => none
    | _ => none

/-- `JSON.parse`: parse a complete JSON document (trailing whitespace only). -/
def jsonParse (s : String) : Option JValue :=
  match jsonRun (2 * s.length + 2) (.val s.toList) with
  | some (v, rest) => if (skipWS rest).isEmpty then some v else none
  | none => none

/-- Truncation of a rational toward zero (the integer part `parseInt` reads
from the decimal rendering of a number); `Int.div` rounds toward zero. -/
def ratTrunc (q : ℚ) : ℤ := Int.tdiv q.num (q.den : ℤ)

/-- Absolute value of a rational, written to compute by cases. -/
def ratAbs (q : ℚ) : ℚ := if q < 0 then -q else q

/-- Leading decimal digit of a natural number. -/
def natLeadDigit (n : ℕ) : ℕ := n / 10 ^ (Nat.log 10 n)

/-- Leading significant decimal digit of a positive rational (0 otherwise). -/
def ratLeadDigit (q : ℚ) : ℕ :=
  if q ≤ 0 then 0
  else if 1 ≤ q then natLeadDigit (ratTrunc q).toNat
  else
    let a := q.num.toNat
    let b := q.den
    let k0 := Nat.log 10 (b / a)
    let k := if b ≤ a * 10 ^ k0 then k0 else k0 + 1
    a * 10 ^ k / b

/-- `parseInt(String(q))` for a finite number `q`: `String` renders decimal
notation for `0` and for `1e-6 ≤ |q| < 1e21`, where `parseInt` reads the
integer part; outside that range it renders exponential notation, where
`parseInt` stops at the mantissa's leading digit. -/
def jsParseIntOfRat (q : ℚ) : ℤ :=
  if q = 0 then 0
  else if ratAbs q < mkRat 1 1000000 ∨ ((10 ^ 21 : ℕ) : ℚ) ≤ ratAbs q then
    (if q < 0 then -1 else 1) * (ratLeadDigit (ratAbs q) : ℤ)
  else ratTrunc q

/-- The digits (decimal, or hexadecimal after a `0x` prefix) that `parseInt`
reads at the front of a string, `none` when there are none (NaN). -/
def parseIntDigits (cs : List Char) : Option ℕ :=
  match cs with
  | '0' :: 'x' :: r =>
    let hs := r.takeWhile isHexDigit
    if hs.isEmpty then none else some (hexVal hs)
  | '0' :: 'X' :: r =>
    let hs := r.takeWhile isHexDigit
    if hs.isEmpty then none else some (hexVal hs)
  | _ =>
    let ds := cs.takeWhile Char.isDigit
    if ds.isEmpty then none else some (digitsVal ds)

/-- `parseInt` on a string: skip leading whitespace, optional sign, then the
longest digit/hex prefix; `none` models NaN. -/
def parseIntString (s : String) : Option ℤ :=
  let cs := s.toList.dropWhile Char.isWhitespace
  match cs with
  | '-' :: r => (parseIntDigits r).map (fun n => -(n : ℤ))
  | '+' :: r => (parseIntDigits r).map (fun n => (n : ℤ))
  | r => (parseIntDigits r).map (fun n => (n : ℤ))

/-- `parseInt(v)` for a JSON value `v` (`parseInt` first coerces its argument
with `String(·)`): `null`, booleans and plain objects render as non-numeric
text; an array renders as its comma-joined elements, so only its first
element's digits are read.  `none` models NaN. -/
def jsParseInt : JValue → Option ℤ
  | .null => none
  | .bool _ => none
  | .num .nan => none
  | .num (.val q) => some (jsParseIntOfRat q)
  | .str s => parseIntString s
  | .obj _ => none
  | .arr [] => none
  | .arr (x :: _) => jsParseInt x

/-- `ToNumber` of a full (already trimmed, nonempty) numeric string: sign,
then either a hex literal or decimal digits with optional fraction and
exponent, consuming the entire string. -/
def parseNumFullTail (cs : List Char) : Option ℚ :=
  match cs with
  | '0' :: 'x' :: r =>
    let hs := r.takeWhile isHexDigit
    if hs.isEmpty ∨ ¬ (r.dropWhile isHexDigit).isEmpty then none
    else some (hexVal hs : ℚ)
  | '0' :: 'X' :: r =>
    let hs := r.takeWhile isHexDigit
    if hs.isEmpty ∨ ¬ (r.dropWhile isHexDigit).isEmpty then none
    else some (hexVal hs : ℚ)
  | _ => do
    let ds := cs.takeWhile Char.isDigit
    let cs1 := cs.dropWhile Char.isDigit
    let (fr, fdigits, cs2) ←
      match cs1 with
      | '.' :: r =>
        let fs := r.takeWhile Char.isDigit
        some (mkRat (digitsVal fs) (10 ^ fs.length), fs.length, r.dropWhile Char.isDigit)
      | _ => some ((0 : ℚ), 0, cs1)
    if ds.isEmpty ∧ fdigits = 0 then none
    else do
      let (ex, cs3) ← parseExponentPart cs2
      if cs3.isEmpty then some (((digitsVal ds : ℚ) + fr) * powTenZ ex) else none

/-- `ToNumber` of a string: whitespace-trimmed; empty becomes 0; otherwise the
whole remainder must be a numeric literal, else NaN.  (The `Infinity`
literals, which no claim exercises, are mapped to NaN.) -/
def strToNumber (s : String) : JSNum :=
  let cs := (s.toList.dropWhile Char.isWhitespace).reverse.dropWhile Char.isWhitespace
  match cs.reverse with
  | [] => .val 0
  | '-' :: r => match parseNumFullTail r with
    | some q => .val (-q)
    | none => .nan
  | '+' :: r => match parseNumFullTail r with
    | some q => .val q
    | none => .nan
  | r => match parseNumFullTail r with
    | some q => .val q
    | none => .nan

/-- `ToNumber` of a JSON value, as applied by `Math.min`/`Math.max` to their
arguments.  A one-element array coerces through the string of its element
(booleans inside an array render as text, hence NaN); longer arrays contain a
comma, hence NaN. -/
def jsToNumber : JValue → JSNum
  | .null => .val 0
  | .bool b => .val (if b then 1 else 0)
  | .num n => n
  | .str s => strToNumber s
  | .obj _ => .nan
  | .arr [] => .val 0
  | .arr [x] =>
    match x with
    | .bool _ => .nan
    | _ => jsToNumber x
  | .arr (_ :: _ :: _) => .nan

/-- `Math.min`: NaN-propagating minimum. -/
def jsMin : JSNum → JSNum → JSNum
  | .nan, _ => .nan
  | _, .nan => .nan
  | .val a, .val b => .val (min a b)

/-- `Math.max`: NaN-propagating maximum. -/
def jsMax : JSNum → JSNum → JSNum
  | .nan, _ => .nan
  | _, .nan => .nan
  | .val a, .val b => .val (max a b)

/-- The three analysis lenses (`LensMode` in the source). -/
inductive LensMode where
  | geometry
  | light
  | story
deriving DecidableEq

/-- The freshness indicator (`VisionStatus` in the source). -/
inductive VisionStatus where
  | fresh
  | stale
  | idle
deriving DecidableEq

/-- One drawable annotation (`VisionOverlay` in the source).  `type` is kept
as the raw string the parser accepted; `status` is copied untyped (the source
copies any truthy value); coordinate components are JS numbers, since string
inputs can coerce to NaN. -/
structure VisionOverlay where
  type : String
  status : Option JValue
  coordinates : Option (JSNum × JSNum × JSNum × JSNum)
  label : Option String
  connection : Option ℚ
  narrative_role : Option String

/-- One analysis result (`VisionData` in the source). -/
structure VisionData where
  analysis : String
  score : ℤ
  overlays : List VisionOverlay

/-- One accepted analysis event (`VisionInsight` in the source). -/
structure VisionInsight where
  data : VisionData
  lens : LensMode
  timestamp : ℕ

/-- One coordinate cell of `parseVisionResponse`:
`Math.max(0, Math.min(1, o.coordinates[i] || 0))` — a missing or falsy
component (including NaN) falls back to 0 before clamping. -/
def clampCoordinate (x : Option JValue) : JSNum :=
  let v : JSNum :=
    match x with
    | none => .val 0
    | some u => if jsTruthy u then jsToNumber u else .val 0
  jsMax (.val 0) (jsMin (.val 1) v)

/-- The four clamped components built from a coordinates array. -/
def coordsOf (xs : List JValue) : JSNum × JSNum × JSNum × JSNum :=
  (clampCoordinate xs[0]?, clampCoordinate xs[1]?, clampCoordinate xs[2]?,
    clampCoordinate xs[3]?)

/-- Outcome of the per-overlay loop body: `err` models the TypeError thrown
by `o.type` when the array element is `null` (caught by the surrounding
`try`, failing the whole parse); `skip` a filtered-out entry. -/
inductive OvResult where
  | err
  | skip
  | keep (o : VisionOverlay)

/-- The body of the overlays loop in `parseVisionResponse`: keep an entry
exactly when `o.type` is a truthy string, copying `status` when truthy,
clamped `coordinates` when an array of length at least 2, `label` truncated to
50 characters when a truthy string, `connection` when a non-negative number,
and `narrative_role` when one of the three enumerated strings. -/
def normalizeOverlay (v : JValue) : OvResult :=
  match v with
  | .null => .err
  | .obj fs =>
    match jsLookup fs "type" with
    | some (.str t) =>
      if t = "" then .skip
      else
        .keep
          { type := t
            status :=
              match jsLookup fs "status" with
              | some sv => if jsTruthy sv then some sv else none
              | none => none
            coordinates :=
              match jsLookup fs "coordinates" with
              | some (.arr xs) => if 2 ≤ xs.length then some (coordsOf xs) else none
              | _ => none
            label :=
              match jsLookup fs "label" with
              | some (.str s) =>
                if s = "" then none else some (String.mk (s.toList.take 50))
              | _ => none
            connection :=
              match jsLookup fs "connection" with
              | some (.num (.val q)) => if 0 ≤ q then some q else none
              | _ => none
            narrative_role :=
              match jsLookup fs "narrative_role" with
              | some (.str s) =>
                if s = "primary" ∨ s = "secondary" ∨ s = "context" then some s else none
              | _ => none }
    | some _ => .skip
    | none => .skip
  | _ => .skip

/-- Run the overlays loop over the array elements in order. -/
def normalizeOverlays : List JValue → Option (List VisionOverlay)
  | [] => some []
  | v :: rest =>
    match normalizeOverlay v with
    | .err => none
    | .skip => normalizeOverlays rest
    | .keep o => (normalizeOverlays rest).map (fun l => o :: l)

/-- `parsed.analysis || ""`.  The field is typed as a string downstream; a
non-string truthy value would be stored as-is in JS (and later crash the
similarity check), and is mapped to `""` here — no claim exercises that
corner. -/
def analysisString (f : Option JValue) : String :=
  match f with
  | some (.str s) => s
  | _ => ""

/-- `Math.min(10, Math.max(1, parseInt(parsed.score) || 5))`: NaN and 0 are
falsy and fall back to 5, any other parsed integer is clamped to `[1,10]`. -/
def jsScore (f : Option JValue) : ℤ :=
  match (match f with | none => none | some v => jsParseInt v) with
  | none => 5
  | some n => if n = 0 then 5 else min 10 (max 1 n)

/-- Validation/normalization of the decoded JSON object (the part of
`parseVisionResponse` after `JSON.parse`).  A `none` result models a thrown
TypeError reaching the `catch`. -/
def normalizeVisionData (parsed : JValue) : Option VisionData :=
  match jsGetMember parsed "overlays" with
  | none => none
  | some ovField =>
    match (match ovField with | some (.arr xs) => normalizeOverlays xs | _ => some []) with
    | none => none
    | some overlays =>
      match jsGetMember parsed "analysis" with
      | none => none
      | some aField =>
        match jsGetMember parsed "score" with
        | none => none
        | some sField =>
          some { analysis := analysisString aField, score := jsScore sField,
                 overlays := overlays }

/-- Trim whitespace from both ends of a character list. -/
def listTrim (cs : List Char) : List Char :=
  ((cs.dropWhile Char.isWhitespace).reverse.dropWhile Char.isWhitespace).reverse

/-- Strip optional surrounding markdown code-fence markers and trim. -/
def cleanResponse (raw : String) : String :=
  let c0 := listTrim raw.toList
  let fence := "```".toList
  let fenceJson := "```json".toList
  let c1 :=
    if fenceJson.isPrefixOf c0 then c0.drop 7
    else if fence.isPrefixOf c0 then c0.drop 3
    else c0
  let c2 := if fence.isSuffixOf c1 then c1.take (c1.length - 3) else c1
  String.mk (listTrim c2)

/-- The greedy brace match `\x7b[\s\S]*\x7d`: from the first opening brace to
the last closing brace, when the latter comes after the former. -/
def extractJson (s : String) : Option String :=
  let cs := s.toList
  match cs.findIdx? (fun c => c == '\x7b'), cs.reverse.findIdx? (fun c => c == '\x7d') with
  | some i, some rj =>
    let j := cs.length - 1 - rj
    if i < j then some (String.mk ((cs.drop i).take (j - i + 1))) else none
  | _, _ => none

/-- `parseVisionResponse`: clean the raw model output, extract the brace
substring, decode it as JSON and normalize; `none` on any failure (the source
returns `null` and never throws — the whole body is wrapped in `try/catch`). -/
def parseVisionResponse (raw : String) : Option VisionData :=
  match extractJson (cleanResponse raw) with
  | none => none
  | some jsonStr =>
    match jsonParse jsonStr with
    | none => none
    | some parsed => normalizeVisionData parsed

/-- Split a character list at whitespace characters (a run of `k` whitespace
characters yields `k - 1` empty chunks, which the length filter below removes
— the same surviving tokens as splitting on whitespace runs). -/
def splitWS : List Char → List (List Char)
  | [] => [[]]
  | c :: cs =>
    let r := splitWS cs
    if c.isWhitespace then [] :: r
    else
      match r with
      | [] => [[c]]
      | t :: ts => (c :: t) :: ts

/-- Tokenization of `calculateSimilarity`: lower-case, split on whitespace,
keep tokens longer than 2 characters. -/
def tokenize (s : String) : List String :=
  ((splitWS (s.toList.map Char.toLower)).map String.mk).filter
    (fun t => 2 < t.toList.length)

/-- The token set of a text (`new Set(tokenize(s))`). -/
def tokenSet (s : String) : Finset String := (tokenize s).toFinset

/-- `calculateSimilarity`: 0 when either string is empty or either token set
is empty, otherwise Jaccard similarity of the token sets. -/
def calculateSimilarity (a b : String) : ℚ :=
  if a = "" ∨ b = "" then 0
  else
    let tokensA := tokenSet a
    let tokensB := tokenSet b
    if tokensA.card = 0 ∨ tokensB.card = 0 then 0
    else mkRat ((tokensA ∩ tokensB).card : ℤ) ((tokensA ∪ tokensB).card)

/-- The similarity exactly as the spec's words describe it: Jaccard similarity
of the two token sets, defined as 0 when either set is empty. -/
def specSimilarity (a b : String) : ℚ :=
  if tokenSet a = ∅ ∨ tokenSet b = ∅ then 0
  else mkRat ((tokenSet a ∩ tokenSet b).card : ℤ) ((tokenSet a ∪ tokenSet b).card)

/-- The deduplication decision: the controller discards a result exactly when
its similarity to the last accepted analysis exceeds 0.8. -/
def shouldAccept (a b : String) : Bool :=
  if mkRat 4 5 < calculateSimilarity a b then false else true

/-- The wire payload handed to the transport
(`{type:"vision_update", mode, data, timestamp}`). -/
structure RelayPayload where
  ptype : String
  mode : LensMode
  data : VisionData
  timestamp : ℕ

/-- Build the relay payload for an insight. -/
def mkRelayPayload (i : VisionInsight) : RelayPayload :=
  { ptype := "vision_update", mode := i.lens, data := i.data, timestamp := i.timestamp }

/-- The transport environment seen by one `sendVisionUpdate` call:
whether `roomRef.current` and its `localParticipant` exist, and whether
`publishData` succeeds (rather than throwing). -/
structure RelayEnv where
  roomReady : Bool
  sendOk : Bool

/-- Outcome of one `sendVisionUpdate` call: the new pending buffer, the
boolean return value, and the payload actually handed to the transport. -/
structure RelayResult where
  pending : Option VisionInsight
  delivered : Bool
  sent : Option RelayPayload

/-- `sendVisionUpdate(insight, forceNow)`: queue (overwriting any pending
item) and return false when the room is not ready, when not connected and not
forced, or when the send throws; otherwise send and clear the pending item. -/
def sendVisionUpdate (env : RelayEnv) (connected : Bool) (insight : VisionInsight)
    (forceNow : Bool) : RelayResult :=
  if env.roomReady = false then { pending := some insight, delivered := false, sent := none }
  else if forceNow = false ∧ connected = false then
    { pending := some insight, delivered := false, sent := none }
  else if env.sendOk then
    { pending := none, delivered := true, sent := some (mkRelayPayload insight) }
  else { pending := some insight, delivered := false, sent := none }

/-- The transient state owned by one hook instance: React state
(`visionStatus`, `latestInsight`, `insightLog`, `isStreaming`, `error`,
`mediaStream`) and refs (`lastAnalysisRef`, `staleTimerRef` as an absolute
deadline, `pendingInsightRef`, `currentLensRef`, `isConnectedRef`). -/
structure ControllerState where
  visionStatus : VisionStatus
  latestInsight : Option VisionInsight
  insightLog : List VisionInsight
  isStreaming : Bool
  error : Option String
  mediaStream : Bool
  lastAnalysis : String
  staleDeadline : Option ℕ
  pendingInsight : Option VisionInsight
  currentLens : LensMode
  connected : Bool

/-- A result delivered by the inference collaborator
(`StreamInferenceResult`). -/
structure StreamInferenceResult where
  ok : Bool
  result : Option String
  error : Option String

/-- `processVisionResult`: skip on a not-ok or empty result, on a parse
failure, and on similarity above 0.8; otherwise record the insight (bounded
history of 50, most recent first), mark fresh, relay it, and re-arm the
10-second stale timer.  The second component is the payload sent this cycle. -/
def processVisionResult (env : RelayEnv) (now : ℕ) (r : StreamInferenceResult)
    (st : ControllerState) : ControllerState × Option RelayPayload :=
  match r.result with
  | none => (st, none)
  | some raw =>
    if r.ok = false ∨ raw = "" then (st, none)
    else
      match parseVisionResponse raw with
      | none => (st, none)
      | some vd =>
        if mkRat 4 5 < calculateSimilarity vd.analysis st.lastAnalysis then (st, none)
        else
          let insight : VisionInsight := { data := vd, lens := st.currentLens, timestamp := now }
          let send := sendVisionUpdate env st.connected insight false
          ({ st with
              lastAnalysis := vd.analysis
              latestInsight := some insight
              insightLog := (insight :: st.insightLog).take 50
              visionStatus := .fresh
              pendingInsight := send.pending
              staleDeadline := some (now + 10000) }, send.sent)

/-- Firing attempt of the stale timer at absolute time `now`: once the armed
deadline has passed, the status flips to stale and the timer is spent. -/
def fireStaleTimer (now : ℕ) (st : ControllerState) : ControllerState :=
  match st.staleDeadline with
  | some d => if d ≤ now then { st with visionStatus := .stale, staleDeadline := none } else st
  | none => st

/-- The `onError` callback installed by `startVision`:
`setError("Vision error: " + err.message)`. -/
def onVisionError (msg : String) (st : ControllerState) : ControllerState :=
  { st with error := some ("Vision error: " ++ msg) }

/-- The environment of one `startVision` call: whether both API credentials
are configured, whether `vision.start()` succeeds, and whether the SDK hands
back a media stream. -/
structure StartEnv where
  credsPresent : Bool
  startOk : Bool
  mediaAvailable : Bool
  startErrMsg : String

/-- `startVision`: on a missing-credentials throw or a start failure, only a
descriptive error message is set; on success the stream state is set up,
status returns to idle and the error is cleared. -/
def startVision (env : StartEnv) (st : ControllerState) : ControllerState :=
  if env.credsPresent = false then
    { st with error := some "Vision start failed: Overshoot API credentials not configured" }
  else if env.startOk = false then
    { st with error := some ("Vision start failed: " ++ env.startErrMsg) }
  else
    { st with mediaStream := env.mediaAvailable, isStreaming := true,
              visionStatus := .idle, error := none }

/-- `stopVision`: release the stream, cancel the stale timer, return to idle
and clear the deduplication memory.  (The insight log, latest insight,
pending relay item and error message are not touched.) -/
def stopVision (st : ControllerState) : ControllerState :=
  { st with isStreaming := false, visionStatus := .idle, mediaStream := false,
            lastAnalysis := "", staleDeadline := none }

/-- `changeLens`: switch the current lens and reset the dedup memory. -/
def changeLens (l : LensMode) (st : ControllerState) : ControllerState :=
  { st with currentLens := l, lastAnalysis := "" }

/-- The effect observing the connected flag turn true: force-send any pending
insight exactly once (success clears it, failure re-buffers it). -/
def connectTransition (env : RelayEnv) (st : ControllerState) :
    ControllerState × Option RelayPayload :=
  let st1 := { st with connected := true }
  match st1.pendingInsight with
  | none => (st1, none)
  | some p =>
    let r := sendVisionUpdate env st1.connected p true
    ({ st1 with pendingInsight := r.pending }, r.sent)

/-- One relay attempt of an insight from controller state (the
`sendVisionUpdate(insight)` call site). -/
def relayStep (env : RelayEnv) (st : ControllerState) (i : VisionInsight) :
    ControllerState × Bool × Option RelayPayload :=
  let r := sendVisionUpdate env st.connected i false
  ({ st with pendingInsight := r.pending }, r.delivered, r.sent)

/-- NaN-propagating addition (JS `+` on numbers). -/
def jsAdd : JSNum → JSNum → JSNum
  | .nan, _ => .nan
  | _, .nan => .nan
  | .val a, .val b => .val (a + b)

/-- NaN-propagating multiplication (JS `*` on numbers). -/
def jsMul : JSNum → JSNum → JSNum
  | .nan, _ => .nan
  | _, .nan => .nan
  | .val a, .val b => .val (a * b)

/-- Halving (JS `/ 2`). -/
def jsHalf : JSNum → JSNum
  | .nan => .nan
  | .val a => .val (a * mkRat 1 2)

/-- One positioned story subject (`StorySubject` in `StoryOverlay.tsx`). -/
structure StorySubject where
  overlay : VisionOverlay
  index : ℕ
  x : JSNum
  y : JSNum
  width : JSNum
  height : JSNum
  centerX : JSNum
  centerY : JSNum

/-- Pixel placement of one story subject:
`coords = overlay.coordinates || [0, 0, 0.1, 0.1]`, scaled by the container. -/
def mkSubject (w h : ℚ) (i : ℕ) (o : VisionOverlay) : StorySubject :=
  let coords := o.coordinates.getD (.val 0, .val 0, .val (mkRat 1 10), .val (mkRat 1 10))
  let px := jsMul coords.1 (.val w)
  let py := jsMul coords.2.1 (.val h)
  let pw := jsMul coords.2.2.1 (.val w)
  let ph := jsMul coords.2.2.2 (.val h)
  { overlay := o, index := i, x := px, y := py, width := pw, height := ph,
    centerX := jsAdd px (jsHalf pw), centerY := jsAdd py (jsHalf ph) }

/-- Build the indexed subject list from position `i0` on. -/
def buildSubjects (w h : ℚ) : ℕ → List VisionOverlay → List StorySubject
  | _, [] => []
  | i, o :: rest => mkSubject w h i o :: buildSubjects w h (i + 1) rest

/-- The subjects of a batch: the `story_subject` overlays, in order, indexed
by their position in that filtered subsequence. -/
def storySubjects (overlays : List VisionOverlay) (w h : ℚ) : List StorySubject :=
  buildSubjects w h 0 (overlays.filter (fun o => o.type == "story_subject"))

/-- One connection link.  `toSubject` is `subjects[targetIndex]`; `none`
models the `undefined` a non-integral index would produce. -/
structure StoryConn where
  fromSubject : StorySubject
  toSubject : Option StorySubject

/-- JS array indexing `xs[q]` with a number index: defined only for an
integral index within bounds, `undefined` otherwise. -/
def jsIndexGet (xs : List StorySubject) (q : ℚ) : Option StorySubject :=
  if q.den = 1 ∧ 0 ≤ q.num then xs[q.num.toNat]? else none

/-- The duplicate check of the connection loop:
`(c.from.index === subject.index && c.to.index === targetIndex) ||
 (c.from.index === targetIndex && c.to.index === subject.index)`. -/
def alreadyAdded (conns : List StoryConn) (i : ℕ) (q : ℚ) : Bool :=
  conns.any (fun c =>
    (decide (c.fromSubject.index = i) &&
      decide ((c.toSubject.map (fun s => (s.index : ℚ))) = some q)) ||
    (decide ((c.fromSubject.index : ℚ) = q) &&
      decide ((c.toSubject.map (fun s => s.index)) = some i)))

/-- The body of the connection-building `forEach`: a subject with a
`connection` below the subject count adds the link to `subjects[connection]`
unless the unordered pair is already present. -/
def connectionStep (subjects : List StorySubject) (conns : List StoryConn)
    (s : StorySubject) : List StoryConn :=
  match s.overlay.connection with
  | none => conns
  | some q =>
    if q < (subjects.length : ℚ) then
      if alreadyAdded conns s.index q then conns
      else conns ++ [{ fromSubject := s, toSubject := jsIndexGet subjects q }]
    else conns

/-- All connection links of a subject list. -/
def storyConnections (subjects : List StorySubject) : List StoryConn :=
  subjects.foldl (connectionStep subjects) []

/-- The rendered output of `StoryOverlay`: `none` (the component returns
`null`) when there are no story subjects or a container dimension is zero,
otherwise the subjects and their connection links. -/
def storyOverlayRender (overlays : List VisionOverlay) (w h : ℚ) :
    Option (List StorySubject × List StoryConn) :=
  let subjects := storySubjects overlays w h
  if subjects.length = 0 ∨ w = 0 ∨ h = 0 then none
  else some (subjects, storyConnections subjects)

/-- Whether a link connects the unordered index pair `(i, j)`. -/
def pairPred (i j : ℕ) (c : StoryConn) : Bool :=
  (decide (c.fromSubject.index = i) && decide (c.toSubject.map (fun s => s.index) = some j)) ||
  (decide (c.fromSubject.index = j) && decide (c.toSubject.map (fun s => s.index) = some i))

/-- How many links of `L` connect the unordered index pair `(i, j)`. -/
def countPair (L : List StoryConn) (i j : ℕ) : ℕ := L.countP (pairPred i j)

/-- A transport environment with the room ready and sends succeeding. -/
def envW : RelayEnv := { roomReady := true, sendOk := true }

/-- A start environment where credentials are present and the start call
succeeds. -/
def startEnvOk : StartEnv :=
  { credsPresent := true, startOk := true, mediaAvailable := true, startErrMsg := "boom" }

/-- The initial hook state. -/
def stInit : ControllerState :=
  { visionStatus := .idle, latestInsight := none, insightLog := [], isStreaming := false,
    error := none, mediaStream := false, lastAnalysis := "", staleDeadline := none,
    pendingInsight := none, currentLens := .geometry, connected := false }

/-- A sample insight. -/
def insight1 : VisionInsight :=
  { data := { analysis := "first insight text", score := 5, overlays := [] },
    lens := .geometry, timestamp := 1 }

/-- Another sample insight. -/
def insight2 : VisionInsight :=
  { data := { analysis := "second insight text", score := 6, overlays := [] },
    lens := .light, timestamp := 2 }

/-- A streaming state with no error surfaced yet. -/
def stErr : ControllerState := { stInit with isStreaming := true }

/-- A state whose history already holds one insight. -/
def stHist : ControllerState := { stInit with insightLog := [insight1] }

/-- A raw model output that parses and passes deduplication against `stInit`. -/
def rawFresh : String := "\x7b\"analysis\":\"Subject centered nicely\",\"score\":7\x7d"

/-- The parse of `rawFresh`. -/
def vdFresh : VisionData :=
  { analysis := "Subject centered nicely", score := 7, overlays := [] }

/-- A bare overlay with the given type, connection and label. -/
def mkOverlay (t : String) (conn : Option ℚ) (lab : Option String) : VisionOverlay :=
  { type := t, status := none, coordinates := none, label := lab, connection := conn,
    narrative_role := none }

/-- The batch of the connection-uniqueness scenario: two story subjects
pointing at each other. -/
def c9batch : List VisionOverlay :=
  [mkOverlay "story_subject" (some 1) none, mkOverlay "story_subject" (some 0) none]

/-- A mixed batch: a non-story overlay (with a connection field, which must be
ignored), then story subjects A and B where A points at filtered position 1. -/
def c10mixed : List VisionOverlay :=
  [mkOverlay "rule_of_thirds" (some 0) none,
   mkOverlay "story_subject" (some 1) (some "A"),
   mkOverlay "story_subject" none (some "B")]

/-- A single story subject pointing at its own position. -/
def c10self : List VisionOverlay := [mkOverlay "story_subject" (some 0) none]

/-- The subject built from the `c10self` batch. -/
def c10selfSubject : StorySubject :=
  mkSubject 100 100 0 (mkOverlay "story_subject" (some 0) none)

/-- The single connection link the `c10self` batch produces. -/
def c10selfConn : StoryConn :=
  { fromSubject := c10selfSubject,
    toSubject := jsIndexGet (storySubjects c10self 100 100) 0 }

section

attribute [local semireducible] Rat.add Rat.mul Rat.inv Rat.sub Rat.ofScientific

theorem parseVisionResponse_empty : parseVisionResponse "" = none := rfl

/-- C1: the Response Parser is total — for every raw response it returns
either a `VisionData` or no result, never an exception; in particular it
returns no result when no brace-delimited substring exists or when JSON
decoding fails, and on a parse failure the controller skips the cycle,
leaving the whole state (latest insight, history, freshness, dedup memory,
pending relay item) unchanged. -/
theorem c1_parser_never_raises :
    (∀ raw, parseVisionResponse raw = none ∨ ∃ d, parseVisionResponse raw = some d) ∧
    (∀ raw, extractJson (cleanResponse raw) = none → parseVisionResponse raw = none) ∧
    (∀ raw s, extractJson (cleanResponse raw) = some s → jsonParse s = none →
      parseVisionResponse raw = none) ∧
    (∀ env now raw st, parseVisionResponse raw = none →
      processVisionResult env now ⟨true, some raw, none⟩ st = (st, none)) := by
  refine ⟨?_, ?_, ?_, ?_⟩
  · intro raw
    cases h : parseVisionResponse raw with
    | none => exact Or.inl rfl
    | some d => exact Or.inr ⟨d, rfl⟩
  · intro raw h
    simp [parseVisionResponse, h]
  · intro raw s h1 h2
    simp [parseVisionResponse, h1, h2]
  · intro env now raw st h
    by_cases hr : raw = ""
    · subst hr
      simp [processVisionResult]
    · simp [processVisionResult, hr, h]

/-- Witness for C1 at the spec's scenario input. -/
theorem c1_witness :
    parseVisionResponse "not json at all" = none ∧
    processVisionResult envW 0 ⟨true, some "not json at all", none⟩ stInit = (stInit, none) := by
  have h : parseVisionResponse "not json at all" = none :=
    c1_parser_never_raises.2.1 "not json at all" (by rfl)
  exact ⟨h, c1_parser_never_raises.2.2.2 envW 0 "not json at all" stInit h⟩

theorem clampCoordinate_num_bounds (n : JSNum) :
    ∃ q : ℚ, clampCoordinate (some (.num n)) = .val q ∧ 0 ≤ q ∧ q ≤ 1 := by
  cases n with
  | nan =>
    exact ⟨0, by simp [clampCoordinate, jsTruthy, jsMin, jsMax], le_refl 0, by norm_num⟩
  | val q =>
    by_cases hq : q = 0
    · subst hq
      exact ⟨0, by simp [clampCoordinate, jsTruthy, jsMin, jsMax], le_refl 0, by norm_num⟩
    · refine ⟨max 0 (min 1 q), ?_, le_max_left _ _, ?_⟩
      · simp [clampCoordinate, jsTruthy, jsToNumber, jsMin, jsMax, hq]
      · exact max_le (by norm_num) (min_le_left _ _)

theorem clampCoordinate_missing : clampCoordinate none = .val 0 := by
  simp [clampCoordinate, jsMin, jsMax]

/-- C2: every coordinate component an overlay input provides as a real number
(including NaN) survives into the parsed overlay hard-clamped into `[0,1]` —
a missing or falsy component (0 or NaN) becomes exactly 0, out-of-range
values saturate — and a coordinates array never causes the overlay to be
rejected: any entry with a truthy string `type` is kept, its coordinates
being the componentwise clamps whenever the field is an array of length at
least 2. -/
theorem c2_coordinate_clamping :
    (∀ n : JSNum, ∃ q : ℚ, clampCoordinate (some (.num n)) = .val q ∧ 0 ≤ q ∧ q ≤ 1) ∧
    clampCoordinate none = .val 0 ∧
    clampCoordinate (some (.num .nan)) = .val 0 ∧
    clampCoordinate (some (.num (.val 0))) = .val 0 ∧
    (∀ q : ℚ, q ≠ 0 → clampCoordinate (some (.num (.val q))) = .val (max 0 (min 1 q))) ∧
    (∀ fs t, jsLookup fs "type" = some (.str t) → t ≠ "" →
      ∃ o, normalizeOverlay (.obj fs) = .keep o ∧
        (∀ xs, jsLookup fs "coordinates" = some (.arr xs) → 2 ≤ xs.length →
          o.coordinates = some (coordsOf xs))) ∧
    (∀ xs : List JValue, (∀ x ∈ xs, ∃ n, x = JValue.num n) → ∀ i : ℕ,
      ∃ q : ℚ, clampCoordinate xs[i]? = .val q ∧ 0 ≤ q ∧ q ≤ 1) := by
  refine ⟨clampCoordinate_num_bounds, clampCoordinate_missing, ?_, ?_, ?_, ?_, ?_⟩
  · simp [clampCoordinate, jsTruthy, jsMin, jsMax]
  · simp [clampCoordinate, jsTruthy, jsMin, jsMax]
  · intro q hq
    simp [clampCoordinate, jsTruthy, jsToNumber, jsMin, jsMax, hq]
  · intro fs t h ht
    simp only [normalizeOverlay, h]
    rw [if_neg ht]
    refine ⟨_, rfl, ?_⟩
    intro xs hc hlen
    simp [hc, hlen]
  · intro xs hall i
    cases hx : xs[i]? with
    | none => exact ⟨0, clampCoordinate_missing, le_refl 0, by norm_num⟩
    | some x =>
      obtain ⟨n, rfl⟩ := hall x (List.getElem?_mem hx)
      exact clampCoordinate_num_bounds n

/-- Witness for C2: a negative and an out-of-range component clamp to the
interval ends, with the overlay kept. -/
theorem c2_witness :
    clampCoordinate (some (.num (.val (-2)))) = .val (max 0 (min 1 (-2))) ∧
    (∃ o, normalizeOverlay
        (.obj [("type", .str "subject_highlight"),
               ("coordinates", .arr [.num (.val 5), .num (.val (-1))])]) = .keep o ∧
      (∀ xs, jsLookup [("type", .str "subject_highlight"),
               ("coordinates", .arr [.num (.val 5), .num (.val (-1))])] "coordinates" =
            some (.arr xs) → 2 ≤ xs.length →
          o.coordinates = some (coordsOf xs))) := by
  constructor
  · exact c2_coordinate_clamping.2.2.2.2.1 (-2) (by norm_num)
  · exact c2_coordinate_clamping.2.2.2.2.2.1 _ "subject_highlight" (by rfl) (by decide)

theorem jsScore_bounds (f : Option JValue) : 1 ≤ jsScore f ∧ jsScore f ≤ 10 := by
  unfold jsScore
  cases hf : (match f with | none => none | some v => jsParseInt v) with
  | none => norm_num
  | some n =>
    by_cases hn : n = 0
    · simp [hn]
    · simp only [hn, if_false]
      refine ⟨le_min (by norm_num) (le_max_left 1 n), min_le_left _ _⟩

theorem normalizeVisionData_score (p : JValue) (d : VisionData)
    (h : normalizeVisionData p = some d) : ∃ f, d.score = jsScore f := by
  unfold normalizeVisionData at h
  cases hov : jsGetMember p "overlays" with
  | none => simp [hov] at h
  | some ov =>
    simp only [hov] at h
    cases hl : (match ov with | some (.arr xs) => normalizeOverlays xs | _ => some []) with
    | none => simp [hl] at h
    | some l =>
      simp only [hl] at h
      cases ha : jsGetMember p "analysis" with
      | none => simp [ha] at h
      | some a =>
        simp only [ha] at h
        cases hs : jsGetMember p "score" with
        | none => simp [hs] at h
        | some sf =>
          simp only [hs, Option.some.injEq] at h
          exact ⟨sf, by rw [← h]⟩

theorem parseVisionResponse_normalize (raw : String) (d : VisionData)
    (h : parseVisionResponse raw = some d) : ∃ p, normalizeVisionData p = some d := by
  unfold parseVisionResponse at h
  cases he : extractJson (cleanResponse raw) with
  | none => simp [he] at h
  | some s =>
    simp only [he] at h
    cases hj : jsonParse s with
    | none => simp [hj] at h
    | some p =>
      simp only [hj] at h
      exact ⟨p, h⟩

/-- C3 (amended): the parsed score is always an integer in `[1,10]`; a
missing or non-numeric score yields exactly 5; a numeric score whose leading
parsed integer is nonzero is truncated and clamped into `[1,10]`, but one
whose leading parsed integer is 0 — such as a score of 0 itself — also yields
5 rather than the clamp of its value. -/
theorem c3_score_clamping :
    (∀ f : Option JValue, 1 ≤ jsScore f ∧ jsScore f ≤ 10) ∧
    jsScore none = 5 ∧
    (∀ v, jsParseInt v = none → jsScore (some v) = 5) ∧
    (∀ v, jsParseInt v = some 0 → jsScore (some v) = 5) ∧
    (∀ v n, jsParseInt v = some n → n ≠ 0 → jsScore (some v) = min 10 (max 1 n)) ∧
    (∀ raw d, parseVisionResponse raw = some d → 1 ≤ d.score ∧ d.score ≤ 10) := by
  refine ⟨jsScore_bounds, rfl, ?_, ?_, ?_, ?_⟩
  · intro v hv
    simp [jsScore, hv]
  · intro v hv
    simp [jsScore, hv]
  · intro v n hv hn
    simp [jsScore, hv, hn]
  · intro raw d h
    obtain ⟨p, hp⟩ := parseVisionResponse_normalize raw d h
    obtain ⟨f, hf⟩ := normalizeVisionData_score p d hp
    rw [hf]
    exact jsScore_bounds f

/-- Counterexample for C3 as stated: the numeric score 0 parses to 5, not to
its clamp into `[1,10]`, which is 1. -/
theorem c3_counterexample :
    parseVisionResponse "\x7b\"score\":0\x7d" =
      some { analysis := "", score := 5, overlays := [] } ∧
    (5 : ℤ) ≠ min 10 (max 1 0) := by
  exact ⟨rfl, by decide⟩

/-- Witness for C3: a non-numeric score yields 5, the score 3.7 truncates and
clamps to 3, and a full parse produces an in-range score. -/
theorem c3_witness :
    jsScore (some (.str "abc")) = 5 ∧
    jsScore (some (.num (.val (mkRat 37 10)))) = min 10 (max 1 3) ∧
    (1 ≤ vdFresh.score ∧ vdFresh.score ≤ 10) := by
  refine ⟨?_, ?_, ?_⟩
  · exact c3_score_clamping.2.2.1 (.str "abc") (by rfl)
  · exact c3_score_clamping.2.2.2.2.1 (.num (.val (mkRat 37 10))) 3 (by decide) (by decide)
  · exact c3_score_clamping.2.2.2.2.2 rawFresh vdFresh (by rfl)

theorem tokenSet_empty_str : tokenSet "" = ∅ := rfl

theorem calculateSimilarity_eq_spec (a b : String) :
    calculateSimilarity a b = specSimilarity a b := by
  unfold calculateSimilarity specSimilarity
  by_cases ha : a = ""
  · subst ha
    simp [tokenSet_empty_str]
  · by_cases hb : b = ""
    · subst hb
      simp [tokenSet_empty_str]
    · rw [if_neg (by tauto)]
      simp [Finset.card_eq_zero]

theorem similarity_self (x : String) (h : tokenSet x ≠ ∅) :
    calculateSimilarity x x = 1 := by
  have hx : x ≠ "" := by
    intro h0
    rw [h0] at h
    exact h tokenSet_empty_str
  have hcard : (tokenSet x).card ≠ 0 :=
    fun h0 => h (Finset.card_eq_zero.mp h0)
  unfold calculateSimilarity
  rw [if_neg (by tauto), if_neg (by tauto)]
  rw [Finset.inter_self, Finset.union_self, Rat.mkRat_eq_div]
  exact div_self (by exact_mod_cast hcard)

/-- C4: the deduplicator's similarity is exactly the Jaccard similarity of
the lower-cased, whitespace-split token sets with tokens of length at most 2
discarded (0 when either set is empty), the threshold 4/5 is 0.8, rejection
happens exactly when the similarity exceeds it — so an empty token set always
accepts, a text repeated against itself (with at least one surviving token)
always rejects — and the controller drops exactly the cycles whose parsed
analysis is over-similar to the last accepted one. -/
theorem c4_jaccard_deduplication :
    mkRat 4 5 = (4 / 5 : ℚ) ∧
    (∀ a b, calculateSimilarity a b = specSimilarity a b) ∧
    (∀ a b, shouldAccept a b = false ↔ mkRat 4 5 < specSimilarity a b) ∧
    (∀ a b, tokenSet a = ∅ ∨ tokenSet b = ∅ →
      calculateSimilarity a b = 0 ∧ shouldAccept a b = true) ∧
    (∀ x, tokenSet x ≠ ∅ → shouldAccept x x = false) ∧
    (∀ env now raw vd st, parseVisionResponse raw = some vd →
      mkRat 4 5 < calculateSimilarity vd.analysis st.lastAnalysis →
      processVisionResult env now ⟨true, some raw, none⟩ st = (st, none)) := by
  refine ⟨by norm_num [Rat.mkRat_eq_div], calculateSimilarity_eq_spec, ?_, ?_, ?_, ?_⟩
  · intro a b
    rw [← calculateSimilarity_eq_spec]
    by_cases h : mkRat 4 5 < calculateSimilarity a b
    · simp [shouldAccept, h]
    · simp [shouldAccept, h]
  · intro a b h
    have hc : calculateSimilarity a b = 0 := by
      rw [calculateSimilarity_eq_spec]
      unfold specSimilarity
      rw [if_pos h]
    refine ⟨hc, ?_⟩
    unfold shouldAccept
    rw [hc, if_neg (by norm_num [Rat.mkRat_eq_div])]
  · intro x h
    unfold shouldAccept
    rw [similarity_self x h, if_pos (by norm_num [Rat.mkRat_eq_div])]
  · intro env now raw vd st hp hs
    have hraw : raw ≠ "" := by
      intro h0
      rw [h0, parseVisionResponse_empty] at hp
      exact Option.noConfusion hp
    simp [processVisionResult, hraw, hp, hs]

/-- Witness for C4: a text against itself rejects; an empty text accepts. -/
theorem c4_witness :
    shouldAccept "hello world" "hello world" = false ∧
    calculateSimilarity "" "abc" = 0 ∧ shouldAccept "" "abc" = true := by
  have h2 := c4_jaccard_deduplication.2.2.2.1 "" "abc" (Or.inl tokenSet_empty_str)
  exact ⟨c4_jaccard_deduplication.2.2.2.2.1 "hello world" (by decide), h2.1, h2.2⟩

theorem send_buffered (env : RelayEnv) (connected : Bool) (i : VisionInsight) (f : Bool)
    (h : env.roomReady = false ∨ (f = false ∧ connected = false) ∨ env.sendOk = false) :
    sendVisionUpdate env connected i f =
      { pending := some i, delivered := false, sent := none } := by
  rcases env with ⟨rr, so⟩
  cases rr <;> cases so <;> cases f <;> cases connected <;> simp_all [sendVisionUpdate]

theorem send_forced_ok (env : RelayEnv) (connected : Bool) (i : VisionInsight)
    (h1 : env.roomReady = true) (h2 : env.sendOk = true) :
    sendVisionUpdate env connected i true =
      { pending := none, delivered := true, sent := some (mkRelayPayload i) } := by
  rcases env with ⟨rr, so⟩
  simp_all [sendVisionUpdate]

theorem relayStep_offline (env : RelayEnv) (st : ControllerState) (i : VisionInsight)
    (hc : st.connected = false) :
    relayStep env st i = ({ st with pendingInsight := some i }, false, none) := by
  simp [relayStep, hc,
    send_buffered env false i false (Or.inr (Or.inl ⟨rfl, rfl⟩))]

theorem connectTransition_flush (env : RelayEnv) (st : ControllerState) (p : VisionInsight)
    (hp : st.pendingInsight = some p) (h1 : env.roomReady = true) (h2 : env.sendOk = true) :
    connectTransition env st =
      ({ st with connected := true, pendingInsight := none }, some (mkRelayPayload p)) := by
  simp [connectTransition, hp, send_forced_ok env true p h1 h2]

theorem connectTransition_fail (env : RelayEnv) (st : ControllerState) (p : VisionInsight)
    (hp : st.pendingInsight = some p) (h : env.roomReady = false ∨ env.sendOk = false) :
    connectTransition env st =
      ({ st with connected := true, pendingInsight := some p }, none) := by
  have hb := send_buffered env true p true (by tauto)
  simp [connectTransition, hp, hb]

/-- C5: whenever delivery cannot happen — room not ready, not connected and
not forced, or the send throws — the insight is stored as the single pending
item (overwriting any previous one) and the call returns false; the
connected-flag transition force-sends the pending item, success clearing it
and failure re-buffering it; hence of two insights buffered consecutively
while disconnected, only the second is sent on reconnect. -/
theorem c5_relay_buffer :
    (∀ env connected i f,
      env.roomReady = false ∨ (f = false ∧ connected = false) ∨ env.sendOk = false →
      sendVisionUpdate env connected i f =
        { pending := some i, delivered := false, sent := none }) ∧
    (∀ env st p, st.pendingInsight = some p → env.roomReady = true → env.sendOk = true →
      connectTransition env st =
        ({ st with connected := true, pendingInsight := none }, some (mkRelayPayload p))) ∧
    (∀ env st p, st.pendingInsight = some p → env.roomReady = false ∨ env.sendOk = false →
      connectTransition env st =
        ({ st with connected := true, pendingInsight := some p }, none)) ∧
    (∀ env env2 st i1 i2, st.connected = false →
      env2.roomReady = true → env2.sendOk = true →
      (relayStep env st i1).2.1 = false ∧
      (relayStep env st i1).2.2 = none ∧
      (relayStep env st i1).1.pendingInsight = some i1 ∧
      (relayStep env (relayStep env st i1).1 i2).2.2 = none ∧
      (relayStep env (relayStep env st i1).1 i2).1.pendingInsight = some i2 ∧
      (connectTransition env2 (relayStep env (relayStep env st i1).1 i2).1).2 =
        some (mkRelayPayload i2) ∧
      (connectTransition env2 (relayStep env (relayStep env st i1).1 i2).1).1.pendingInsight =
        none) := by
  refine ⟨send_buffered, connectTransition_flush, connectTransition_fail, ?_⟩
  intro env env2 st i1 i2 hc h1 h2
  have e1 := relayStep_offline env st i1 hc
  have hc1 : (relayStep env st i1).1.connected = false := by rw [e1]; exact hc
  have e2 := relayStep_offline env (relayStep env st i1).1 i2 hc1
  have hp2 : (relayStep env (relayStep env st i1).1 i2).1.pendingInsight = some i2 := by
    rw [e2]
  have e3 := connectTransition_flush env2 _ i2 hp2 h1 h2
  exact ⟨by rw [e1], by rw [e1], by rw [e1], by rw [e2], hp2, by rw [e3], by rw [e3]⟩

/-- Witness for C5: two concrete insights buffered while disconnected; only
the second one's payload goes out on reconnect. -/
theorem c5_witness :
    (relayStep envW stInit insight1).2.1 = false ∧
    (relayStep envW stInit insight1).2.2 = none ∧
    (relayStep envW stInit insight1).1.pendingInsight = some insight1 ∧
    (relayStep envW (relayStep envW stInit insight1).1 insight2).2.2 = none ∧
    (relayStep envW (relayStep envW stInit insight1).1 insight2).1.pendingInsight =
      some insight2 ∧
    (connectTransition envW
        (relayStep envW (relayStep envW stInit insight1).1 insight2).1).2 =
      some (mkRelayPayload insight2) ∧
    (connectTransition envW
        (relayStep envW (relayStep envW stInit insight1).1 insight2).1).1.pendingInsight =
      none :=
  c5_relay_buffer.2.2.2 envW envW stInit insight1 insight2 rfl rfl rfl

theorem processAccept_fields (env : RelayEnv) (now : ℕ) (raw : String) (vd : VisionData)
    (st : ControllerState) (hp : parseVisionResponse raw = some vd)
    (hs : ¬ mkRat 4 5 < calculateSimilarity vd.analysis st.lastAnalysis) :
    (processVisionResult env now ⟨true, some raw, none⟩ st).1.visionStatus = .fresh ∧
    (processVisionResult env now ⟨true, some raw, none⟩ st).1.staleDeadline =
      some (now + 10000) := by
  have hraw : raw ≠ "" := by
    intro h0
    rw [h0, parseVisionResponse_empty] at hp
    exact Option.noConfusion hp
  simp [processVisionResult, hraw, hp, hs]

theorem fireStale_before (st : ControllerState) (d t : ℕ) (hd : st.staleDeadline = some d)
    (ht : t < d) : fireStaleTimer t st = st := by
  simp only [fireStaleTimer, hd]
  rw [if_neg (by omega)]

theorem fireStale_after (st : ControllerState) (d t : ℕ) (hd : st.staleDeadline = some d)
    (ht : d ≤ t) :
    fireStaleTimer t st = { st with visionStatus := .stale, staleDeadline := none } := by
  simp only [fireStaleTimer, hd]
  rw [if_pos ht]

theorem fireStale_spent (st : ControllerState) (t : ℕ) (hd : st.staleDeadline = none) :
    fireStaleTimer t st = st := by
  simp only [fireStaleTimer, hd]

/-- C6: every accepted insight sets the status to fresh and replaces any
armed stale deadline with `now + 10000` (cancelling the pending timer); the
timer leaves the state alone before its deadline and flips the status to
stale at or after it; hence with an insight accepted at t=0 and nothing else,
the status reads fresh at t=9900ms, stale at t=10100ms, and remains stale at
every later firing attempt. -/
theorem c6_freshness_timing :
    (∀ env now raw vd st, parseVisionResponse raw = some vd →
      ¬ mkRat 4 5 < calculateSimilarity vd.analysis st.lastAnalysis →
      (processVisionResult env now ⟨true, some raw, none⟩ st).1.visionStatus = .fresh ∧
      (processVisionResult env now ⟨true, some raw, none⟩ st).1.staleDeadline =
        some (now + 10000)) ∧
    (∀ st d t, st.staleDeadline = some d → t < d → fireStaleTimer t st = st) ∧
    (∀ st d t, st.staleDeadline = some d → d ≤ t →
      (fireStaleTimer t st).visionStatus = .stale ∧
      (fireStaleTimer t st).staleDeadline = none) ∧
    (∀ st t, st.staleDeadline = none → fireStaleTimer t st = st) ∧
    (∀ env raw vd st, parseVisionResponse raw = some vd →
      ¬ mkRat 4 5 < calculateSimilarity vd.analysis st.lastAnalysis →
      (fireStaleTimer 9900
          (processVisionResult env 0 ⟨true, some raw, none⟩ st).1).visionStatus = .fresh ∧
      (fireStaleTimer 10100
          (processVisionResult env 0 ⟨true, some raw, none⟩ st).1).visionStatus = .stale ∧
      ∀ t2, (fireStaleTimer t2 (fireStaleTimer 10100
          (processVisionResult env 0 ⟨true, some raw, none⟩ st).1)).visionStatus = .stale) := by
  refine ⟨processAccept_fields, fireStale_before, ?_, fireStale_spent, ?_⟩
  · intro st d t hd ht
    rw [fireStale_after st d t hd ht]
    exact ⟨rfl, rfl⟩
  · intro env raw vd st hp hs
    obtain ⟨hf, hd⟩ := processAccept_fields env 0 raw vd st hp hs
    refine ⟨?_, ?_, ?_⟩
    · rw [fireStale_before _ 10000 9900 hd (by norm_num)]
      exact hf
    · rw [fireStale_after _ 10000 10100 hd (by norm_num)]
    · intro t2
      rw [fireStale_after _ 10000 10100 hd (by norm_num), fireStale_spent _ t2 rfl]

/-- Witness for C6 on a concrete accepted insight at t=0. -/
theorem c6_witness :
    (fireStaleTimer 9900
        (processVisionResult envW 0 ⟨true, some rawFresh, none⟩ stInit).1).visionStatus =
      .fresh ∧
    (fireStaleTimer 10100
        (processVisionResult envW 0 ⟨true, some rawFresh, none⟩ stInit).1).visionStatus =
      .stale ∧
    ∀ t2, (fireStaleTimer t2 (fireStaleTimer 10100
        (processVisionResult envW 0 ⟨true, some rawFresh, none⟩ stInit).1)).visionStatus =
      .stale :=
  c6_freshness_timing.2.2.2.2 envW rawFresh vdFresh stInit (by rfl) (by decide)

/-- C7 (amended): a mid-session `{ok:false}` inference result is logged and
the cycle is skipped with no state change at all — in particular the
user-visible error message is not set by it; only errors delivered through
the separate `onError` callback set the message; the session keeps running
(it is not stopped or restarted). -/
theorem c7_runtime_error_skips :
    (∀ env now r st, r.ok = false → processVisionResult env now r st = (st, none)) ∧
    (∀ msg st, onVisionError msg st =
      { st with error := some ("Vision error: " ++ msg) }) := by
  constructor
  · intro env now r st h
    rcases r with ⟨ok, result, err⟩
    simp only at h
    subst h
    cases result with
    | none => rfl
    | some raw => simp [processVisionResult]
  · intro msg st
    rfl

/-- Witness for C7 at a concrete error result. -/
theorem c7_witness :
    processVisionResult envW 5 ⟨false, some "garbage", some "inference failed"⟩ stErr =
      (stErr, none) :=
  c7_runtime_error_skips.1 envW 5 ⟨false, some "garbage", some "inference failed"⟩ stErr rfl

/-- Counterexample for C7 as stated: after the `{ok:false}` result the
user-visible error message is still unset — the error was not surfaced — even
though the session continues streaming. -/
theorem c7_counterexample :
    processVisionResult envW 5 ⟨false, some "garbage", some "inference failed"⟩ stErr =
      (stErr, none) ∧
    (processVisionResult envW 5
        ⟨false, some "garbage", some "inference failed"⟩ stErr).1.error = none ∧
    stErr.isStreaming = true := by
  exact ⟨rfl, rfl, rfl⟩

/-- C8 (amended): across a stop/start cycle the deduplication memory (the
last-accepted analysis text) is cleared and the stale timer disarmed, but the
insight history log is preserved — neither `stopVision` nor `startVision`
clears it. -/
theorem c8_stop_start_state :
    ∀ st env, env.credsPresent = true → env.startOk = true →
      (startVision env (stopVision st)).lastAnalysis = "" ∧
      (startVision env (stopVision st)).insightLog = st.insightLog ∧
      (startVision env (stopVision st)).isStreaming = true ∧
      (startVision env (stopVision st)).staleDeadline = none := by
  intro st env h1 h2
  rcases env with ⟨c, s, m, msg⟩
  simp_all [startVision, stopVision]

/-- Witness for C8 on the initial state. -/
theorem c8_witness :
    (startVision startEnvOk (stopVision stInit)).lastAnalysis = "" ∧
    (startVision startEnvOk (stopVision stInit)).insightLog = stInit.insightLog ∧
    (startVision startEnvOk (stopVision stInit)).isStreaming = true ∧
    (startVision startEnvOk (stopVision stInit)).staleDeadline = none :=
  c8_stop_start_state stInit startEnvOk rfl rfl

/-- Counterexample for C8 as stated: a history entry survives the full
stop/start cycle, so the insight history log is not empty afterwards. -/
theorem c8_counterexample :
    (startVision startEnvOk (stopVision stHist)).insightLog = [insight1] ∧
    [insight1] ≠ ([] : List VisionInsight) := by
  exact ⟨rfl, by simp⟩

end

theorem mkSubject_index (w h : ℚ) (i : ℕ) (o : VisionOverlay) :
    (mkSubject w h i o).index = i := rfl

theorem buildSubjects_index (w h : ℚ) :
    ∀ (l : List VisionOverlay) (i0 k : ℕ) (s : StorySubject),
      (buildSubjects w h i0 l)[k]? = some s → s.index = i0 + k := by
  intro l
  induction l with
  | nil => intro i0 k s hs; simp [buildSubjects] at hs
  | cons o rest ih =>
    intro i0 k s hs
    cases k with
    | zero =>
      simp only [buildSubjects, List.getElem?_cons_zero, Option.some.injEq] at hs
      rw [← hs, mkSubject_index]
      omega
    | succ k =>
      simp only [buildSubjects, List.getElem?_cons_succ] at hs
      have := ih (i0 + 1) k s hs
      omega

theorem storySubjects_index (overlays : List VisionOverlay) (w h : ℚ) :
    ∀ (k : ℕ) (s : StorySubject), (storySubjects overlays w h)[k]? = some s →
      s.index = k := by
  intro k s hs
  have := buildSubjects_index w h (overlays.filter (fun o => o.type == "story_subject")) 0 k s hs
  omega

theorem toSubject_cast_eq (x : Option StorySubject) (j : ℕ) :
    (x.map (fun s => (s.index : ℚ)) = some (j : ℚ)) ↔
      x.map (fun s => s.index) = some j := by
  cases x <;> simp [Nat.cast_inj]

theorem pairPred_true_iff (c : StoryConn) (i j : ℕ) : pairPred i j c = true ↔
    (c.fromSubject.index = i ∧ c.toSubject.map (fun s => s.index) = some j) ∨
    (c.fromSubject.index = j ∧ c.toSubject.map (fun s => s.index) = some i) := by
  simp [pairPred]

theorem jsIndexGet_eq_some (xs : List StorySubject) (q : ℚ) (s' : StorySubject)
    (h : jsIndexGet xs q = some s') :
    q.den = 1 ∧ 0 ≤ q.num ∧ xs[q.num.toNat]? = some s' := by
  unfold jsIndexGet at h
  by_cases hc : q.den = 1 ∧ 0 ≤ q.num
  · rw [if_pos hc] at h
    exact ⟨hc.1, hc.2, h⟩
  · rw [if_neg hc] at h
    exact absurd h (by simp)

theorem rat_of_den_one (q : ℚ) (hden : q.den = 1) (hnum : 0 ≤ q.num) :
    q = (q.num.toNat : ℚ) := by
  have h2 : ((q.num.toNat : ℕ) : ℤ) = q.num := Int.toNat_of_nonneg hnum
  have h1 : ((q.num : ℤ) : ℚ) = q := by
    rw [← Rat.num_div_den q, hden]
    norm_num
  calc q = ((q.num : ℤ) : ℚ) := h1.symm
    _ = ((q.num.toNat : ℕ) : ℚ) := by exact_mod_cast h2.symm

theorem new_conn_orientations (subjects : List StorySubject)
    (hidx : ∀ (k : ℕ) (s' : StorySubject), subjects[k]? = some s' → s'.index = k)
    (s : StorySubject) (q : ℚ) (i j : ℕ)
    (hp : pairPred i j { fromSubject := s, toSubject := jsIndexGet subjects q } = true) :
    (s.index = i ∧ q = (j : ℚ)) ∨ (s.index = j ∧ q = (i : ℚ)) := by
  rw [pairPred_true_iff] at hp
  rcases hp with ⟨h1, h2⟩ | ⟨h1, h2⟩
  · left
    refine ⟨h1, ?_⟩
    rcases Option.map_eq_some'.mp h2 with ⟨s', hs', hsj⟩
    obtain ⟨hden, hnum, hget⟩ := jsIndexGet_eq_some subjects q s' hs'
    have hi := hidx _ _ hget
    rw [rat_of_den_one q hden hnum, ← hsj, hi]
  · right
    refine ⟨h1, ?_⟩
    rcases Option.map_eq_some'.mp h2 with ⟨s', hs', hsj⟩
    obtain ⟨hden, hnum, hget⟩ := jsIndexGet_eq_some subjects q s' hs'
    have hi := hidx _ _ hget
    rw [rat_of_den_one q hden hnum, ← hsj, hi]

theorem alreadyAdded_false_spec (conns : List StoryConn) (i0 : ℕ) (q : ℚ)
    (h : alreadyAdded conns i0 q = false) :
    ∀ c ∈ conns,
      ¬(c.fromSubject.index = i0 ∧ c.toSubject.map (fun s => (s.index : ℚ)) = some q) ∧
      ¬((c.fromSubject.index : ℚ) = q ∧ c.toSubject.map (fun s => s.index) = some i0) := by
  rw [alreadyAdded, List.any_eq_false] at h
  intro c hc
  have := h c hc
  constructor
  · intro ⟨ha, hb⟩
    simp [ha, hb] at this
  · intro ⟨ha, hb⟩
    simp [ha, hb] at this

theorem connectionStep_none (subjects : List StorySubject) (acc : List StoryConn)
    (s : StorySubject) (h : s.overlay.connection = none) :
    connectionStep subjects acc s = acc := by
  simp [connectionStep, h]

theorem connectionStep_out (subjects : List StorySubject) (acc : List StoryConn)
    (s : StorySubject) (q : ℚ) (h : s.overlay.connection = some q)
    (hq : ¬ q < (subjects.length : ℚ)) : connectionStep subjects acc s = acc := by
  simp [connectionStep, h, hq]

theorem connectionStep_dup (subjects : List StorySubject) (acc : List StoryConn)
    (s : StorySubject) (q : ℚ) (h : s.overlay.connection = some q)
    (hq : q < (subjects.length : ℚ)) (hadd : alreadyAdded acc s.index q = true) :
    connectionStep subjects acc s = acc := by
  simp [connectionStep, h, hq, hadd]

theorem connectionStep_push (subjects : List StorySubject) (acc : List StoryConn)
    (s : StorySubject) (q : ℚ) (h : s.overlay.connection = some q)
    (hq : q < (subjects.length : ℚ)) (hadd : alreadyAdded acc s.index q = false) :
    connectionStep subjects acc s =
      acc ++ [{ fromSubject := s, toSubject := jsIndexGet subjects q }] := by
  simp [connectionStep, h, hq, hadd]

theorem countPair_step (subjects : List StorySubject)
    (hidx : ∀ (k : ℕ) (s' : StorySubject), subjects[k]? = some s' → s'.index = k)
    (acc : List StoryConn) (s : StorySubject)
    (hinv : ∀ i j, acc.countP (pairPred i j) ≤ 1) :
    ∀ i j, (connectionStep subjects acc s).countP (pairPred i j) ≤ 1 := by
  intro i j
  cases hconn : s.overlay.connection with
  | none =>
    rw [connectionStep_none subjects acc s hconn]
    exact hinv i j
  | some q =>
    by_cases hq : q < (subjects.length : ℚ)
    · by_cases hadd : alreadyAdded acc s.index q = true
      · rw [connectionStep_dup subjects acc s q hconn hq hadd]
        exact hinv i j
      · rw [connectionStep_push subjects acc s q hconn hq (by simpa using hadd)]
        rw [List.countP_append]
        by_cases hp : pairPred i j { fromSubject := s, toSubject := jsIndexGet subjects q } = true
        · have hzero : acc.countP (pairPred i j) = 0 := by
            rw [List.countP_eq_zero]
            intro c hc hcp
            have hspec := alreadyAdded_false_spec acc s.index q (by simpa using hadd) c hc
            rcases new_conn_orientations subjects hidx s q i j hp with ⟨hsi, hqj⟩ | ⟨hsj, hqi⟩
            · rcases (pairPred_true_iff c i j).mp hcp with ⟨hcf, hct⟩ | ⟨hcf, hct⟩
              · exact hspec.1 ⟨by rw [hcf, hsi], by
                  rw [hqj, toSubject_cast_eq]
                  exact hct⟩
              · exact hspec.2 ⟨by rw [hcf, hqj], by rw [hsi]; exact hct⟩
            · rcases (pairPred_true_iff c i j).mp hcp with ⟨hcf, hct⟩ | ⟨hcf, hct⟩
              · exact hspec.2 ⟨by rw [hcf, hqi], by rw [hsj]; exact hct⟩
              · exact hspec.1 ⟨by rw [hcf, hsj], by
                  rw [hqi, toSubject_cast_eq]
                  exact hct⟩
          rw [hzero]
          simp [List.countP_cons, hp]
        · have hone : List.countP (pairPred i j)
              [{ fromSubject := s, toSubject := jsIndexGet subjects q }] = 0 := by
            simp [List.countP_cons, hp]
          rw [hone]
          simpa using hinv i j
    · rw [connectionStep_out subjects acc s q hconn hq]
      exact hinv i j

theorem foldl_countPair (subjects : List StorySubject)
    (hidx : ∀ (k : ℕ) (s' : StorySubject), subjects[k]? = some s' → s'.index = k) :
    ∀ (l : List StorySubject) (acc : List StoryConn),
      (∀ i j, acc.countP (pairPred i j) ≤ 1) →
      ∀ i j, (l.foldl (connectionStep subjects) acc).countP (pairPred i j) ≤ 1 := by
  intro l
  induction l with
  | nil => intro acc hacc i j; exact hacc i j
  | cons s rest ih =>
    intro acc hacc i j
    exact ih _ (countPair_step subjects hidx acc s hacc) i j

/-- C9: the Overlay Geometry Mapper emits each unordered connection pair of
story subjects at most once, for every overlay batch and container size; in
particular the two-subject batch with mutual references `connection:1` /
`connection:0` yields exactly one connection link, connecting indices 0
and 1. -/
theorem c9_connection_pair_uniqueness :
    (∀ (overlays : List VisionOverlay) (w h : ℚ) (i j : ℕ),
      countPair (storyConnections (storySubjects overlays w h)) i j ≤ 1) ∧
    (storyConnections (storySubjects c9batch 100 100)).length = 1 ∧
    countPair (storyConnections (storySubjects c9batch 100 100)) 0 1 = 1 := by
  refine ⟨?_, rfl, rfl⟩
  intro overlays w h i j
  unfold countPair storyConnections
  exact foldl_countPair (storySubjects overlays w h) (storySubjects_index overlays w h)
    (storySubjects overlays w h) [] (by simp) i j

theorem connections_sound (subjects : List StorySubject) :
    ∀ (l : List StorySubject) (acc : List StoryConn),
      (∀ c ∈ acc, ∃ q, c.fromSubject.overlay.connection = some q ∧
        q < (subjects.length : ℚ) ∧ c.toSubject = jsIndexGet subjects q) →
      ∀ c ∈ l.foldl (connectionStep subjects) acc,
        ∃ q, c.fromSubject.overlay.connection = some q ∧
          q < (subjects.length : ℚ) ∧ c.toSubject = jsIndexGet subjects q := by
  intro l
  induction l with
  | nil => intro acc hacc; exact hacc
  | cons s rest ih =>
    intro acc hacc
    apply ih
    intro c hc
    cases hconn : s.overlay.connection with
    | none =>
      rw [connectionStep_none subjects acc s hconn] at hc
      exact hacc c hc
    | some q =>
      by_cases hq : q < (subjects.length : ℚ)
      · by_cases hadd : alreadyAdded acc s.index q = true
        · rw [connectionStep_dup subjects acc s q hconn hq hadd] at hc
          exact hacc c hc
        · rw [connectionStep_push subjects acc s q hconn hq (by simpa using hadd)] at hc
          rcases List.mem_append.mp hc with hc2 | hc2
          · exact hacc c hc2
          · obtain rfl := List.mem_singleton.mp hc2
            exact ⟨q, hconn, hq, rfl⟩
      · rw [connectionStep_out subjects acc s q hconn hq] at hc
        exact hacc c hc

/-- C10: a `connection` resolves as a position within the batch filtered to
story subjects — every emitted link comes from a connection value below the
story-subject count, and a natural-number connection `k` resolves to the
`k`-th story subject (no out-of-range access); a connection at or beyond the
count yields no link at all; the mixed batch shows resolution in the filtered
subsequence (index 1 is subject "B", not the batch's element 1), and a
subject pointing at its own position yields a self-pair. -/
theorem c10_connection_resolution :
    (∀ (overlays : List VisionOverlay) (w h : ℚ) (c : StoryConn),
      c ∈ storyConnections (storySubjects overlays w h) →
      ∃ q, c.fromSubject.overlay.connection = some q ∧
        q < ((storySubjects overlays w h).length : ℚ) ∧
        c.toSubject = jsIndexGet (storySubjects overlays w h) q) ∧
    (∀ (overlays : List VisionOverlay) (w h : ℚ) (c : StoryConn) (k : ℕ),
      c ∈ storyConnections (storySubjects overlays w h) →
      c.fromSubject.overlay.connection = some (k : ℚ) →
      ∃ s', c.toSubject = some s' ∧ s'.index = k ∧
        (storySubjects overlays w h)[k]? = some s') ∧
    ((storyConnections (storySubjects c10mixed 100 100)).map
      (fun c => (c.fromSubject.index, c.toSubject.map (fun s => s.overlay.label))) =
      [(0, some (some "B"))]) ∧
    ((storyConnections (storySubjects c10self 100 100)).map
      (fun c => (c.fromSubject.index, c.toSubject.map (fun s => s.index))) =
      [(0, some 0)]) := by
  refine ⟨?_, ?_, rfl, rfl⟩
  · intro overlays w h c hmem
    unfold storyConnections at hmem
    exact connections_sound (storySubjects overlays w h) (storySubjects overlays w h) []
      (by simp) c hmem
  · intro overlays w h c k hmem hconn
    unfold storyConnections at hmem
    obtain ⟨q, hq1, hq2, hq3⟩ := connections_sound (storySubjects overlays w h)
      (storySubjects overlays w h) [] (by simp) c hmem
    have hqk : q = (k : ℚ) := by
      rw [hconn] at hq1
      exact (Option.some.inj hq1).symm
    subst hqk
    have hklen : k < (storySubjects overlays w h).length := by exact_mod_cast hq2
    have hget : (storySubjects overlays w h)[k]? = some ((storySubjects overlays w h)[k]) :=
      List.getElem?_eq_getElem hklen
    have hjs : jsIndexGet (storySubjects overlays w h) ((k : ℕ) : ℚ) =
        (storySubjects overlays w h)[k]? := by
      unfold jsIndexGet
      rw [if_pos ⟨Rat.den_natCast k, by rw [Rat.num_natCast]; exact Int.natCast_nonneg k⟩]
      rw [Rat.num_natCast]
      norm_num
    refine ⟨(storySubjects overlays w h)[k], ?_, ?_, hget⟩
    · rw [hq3, hjs, hget]
    · exact storySubjects_index overlays w h k _ hget

/-- Witness for C10: the self-referencing batch's single link resolves to the
story subject at filtered position 0 — its own position. -/
theorem c10_witness :
    ∃ s', c10selfConn.toSubject = some s' ∧ s'.index = 0 ∧
      (storySubjects c10self 100 100)[0]? = some s' :=
  c10_connection_resolution.2.1 c10self 100 100 c10selfConn 0
    (by exact List.mem_cons_self _ _)
    (by norm_num [c10selfConn, c10selfSubject, mkSubject, mkOverlay])
